import Mathlib

/-!
Verification of the WTSS QGIS plugin controller
(`src/wtss_plugin/controller/wtss_qgis_controller.py`).

The controller's state is a JSON file holding a list of registered
services; every operation re-reads that file and some rewrite it.  The
shallow embedding passes that state explicitly as `Storage`: `none`
models the file being absent (opening it raises `FileNotFoundError`),
`some services` models a file holding the list `services`.

The remote world (the `wtss` client library and the `requests` HTTP
library) is modelled by a `RemoteEnv` record of deterministic functions:
an `Option` result of `none` models the remote call raising, `some v`
models it returning `v`.  Uncaught Python exceptions surface as
`Except.error`; exceptions the source catches are folded into the
branch the handler takes, exactly as the handler writes it.
-/

namespace WtssQgis

/-- The `Service` class (`id`, `name`, `host`), as serialised to JSON. -/
structure Service where
  id : Int
  name : String
  host : String
deriving DecidableEq, Repr

/-- The persisted `ServiceList` JSON file: `none` when the file does not
exist (opening raises `FileNotFoundError`), `some services` otherwise. -/
abbrev Storage := Option (List Service)

/-- A `requests` HTTP response: its status code, (abstractly) its JSON
body, and the `["result"]["timeline"]` list of date strings the source
reads out of a 200 body before returning it. -/
structure HttpResponse where
  status_code : Int
  body : String
  timeline : List String
deriving DecidableEq, Repr

/-- The arguments of `productTimeSeries` besides service and product:
band names, point coordinates and the date interval.  The source passes
the coordinates through untouched, so their numeric type is immaterial
to every claim; they are embedded as integers. -/
structure TsQuery where
  bands : List String
  longitude : Int
  latitude : Int
  start_date : String
  end_date : String
deriving DecidableEq, Repr

/-- Python exceptions that escape an operation of the controller. -/
inductive PyExn where
  /-- `None.host`: `AttributeError` on an unregistered service name. -/
  | attributeError
  /-- `requests.get` raising (connection error, timeout). -/
  | requestsError
  /-- the `wtss` client raising outside any `try` of the source. -/
  | wtssError
deriving DecidableEq, Repr

/-- The value `productTimeSeries` returns on success: either the time
series object from the `wtss` client, or the decoded JSON body of the
fallback raw HTTP request (whose timeline strings the source converts
to dates; that pure conversion is kept abstract in the body). -/
inductive TsValue where
  | fromWtss (v : String)
  | fromHttp (body : String)
deriving DecidableEq, Repr

/-- One remote interaction, recorded in issue order by the instrumented
`productTimeSeries`. -/
inductive RemoteCall where
  /-- `WTSS(host)` followed by reading `client.coverages` (this is what
  `testServiceConnection` does). -/
  | wtssCoverages (host : String)
  /-- `WTSS(host)` followed by `client[product].ts(...)`. -/
  | wtssTimeSeries (host : String) (product : String)
  /-- the raw `requests.get(url, params)` fallback. -/
  | httpGet (url : String)
deriving DecidableEq, Repr

/-- The deterministic remote world: `wtss` client calls and raw HTTP.
A `none` result models the call raising. -/
structure RemoteEnv where
  wtssCoverages : String → Option (List String)
  wtssDescribe : String → String → Option (List (String × String))
  wtssTs : String → String → TsQuery → Option String
  httpGet : String → TsQuery → Option HttpResponse

/-- `Services.testServiceConnection`: builds a `WTSS` client, reads its
`coverages`, returns `True`; the bare `except` turns any raise into
`False`. -/
def testServiceConnection (env : RemoteEnv) (host : String) : Bool :=
  (env.wtssCoverages host).isSome

/-- The loop body of `Services.findServiceByName`: the accumulator is
overwritten at every match, so the LAST service with the given name
wins. -/
def findServiceInList (services : List Service) (service_name : String) : Option Service :=
  services.foldl
    (fun acc server => if server.name = service_name then some server else acc)
    none

/-- `Services.findServiceByName`: re-reads the file; `FileNotFoundError`
and `FileExistsError` are caught and become `None`. -/
def findServiceByName (st : Storage) (service_name : String) : Option Service :=
  match st with
  | none => none
  | some services => findServiceInList services service_name

/-- `Services.getServiceNames`: the names of the stored services whose
host passes the connection test; file errors become `[]`. -/
def getServiceNames (env : RemoteEnv) (st : Storage) : List String :=
  match st with
  | none => []
  | some services =>
    (services.filter (fun s => testServiceConnection env s.host)).map Service.name

/-- What `Services.getServicesDict` returns: the empty dict `{}` on a
file error, otherwise the `{"services": [...]}` dict. -/
inductive ServicesDict where
  | empty
  | withServices (services : List Service)
deriving DecidableEq, Repr

/-- `Services.getServicesDict`. -/
def getServicesDict (st : Storage) : ServicesDict :=
  match st with
  | none => .empty
  | some services => .withServices services

/-- `list.pop(list.index(x))`: remove the first element equal to `x`
(SimpleNamespace equality compares all attributes, i.e. `Service`
record equality). -/
def removeFirstEq : List Service → Service → List Service
  | [], _ => []
  | s :: rest, t => if s = t then rest else s :: removeFirstEq rest t

/-- `Services.deleteService`: looks the name up (last match); when found,
removes the first stored element equal to it and writes the file back.
When the file is missing the lookup already returned `None`, so nothing
is written and `None` is returned. -/
def deleteService (st : Storage) (server_name : String) : Option Service × Storage :=
  match findServiceByName st server_name with
  | none => (none, st)
  | some server_to_delete =>
    match st with
    | none => (none, st)
    | some services => (some server_to_delete, some (removeFirstEq services server_to_delete))

/-- The id `Services.addService` assigns: `services[-1].id + 1`, or `0`
when the file is missing (`FileNotFoundError`) or the list is empty
(`IndexError`), both caught by the inner handler. -/
def nextIndex (st : Storage) : Int :=
  match st with
  | none => 0
  | some services =>
    match services.getLast? with
    | none => 0
    | some last => last.id + 1

/-- `Services.addService`: when the host passes the connection test and
the name is not yet registered, appends `Service(nextIndex, name, host)`
and writes the file (creating it when missing); otherwise leaves the
storage alone and returns whatever the lookup found. -/
def addService (env : RemoteEnv) (st : Storage) (name host : String) :
    Option Service × Storage :=
  let server_found := findServiceByName st name
  if testServiceConnection env host && server_found.isNone then
    let server_to_save : Service := ⟨nextIndex st, name, host⟩
    (some server_to_save, some (st.getD [] ++ [server_to_save]))
  else
    (server_found, st)

/-- `Services.editService`: deletes the entry found by name (when any)
and then re-adds the name with the new host — two separate writes with
no rollback. -/
def editService (env : RemoteEnv) (st : Storage) (server_name server_host : String) :
    Option Service × Storage :=
  let st1 :=
    match findServiceByName st server_name with
    | some _ => (deleteService st server_name).2
    | none => st
  addService env st1 server_name server_host

/-- `Services.resetAvailableServices`: registers the default service and,
when `getServiceNames` still comes back empty, overwrites the file with
an empty service list.  `wtss_host` stands for `Config.WTSS_HOST`, a
constant of the (external) config module whose value no claim depends
on. -/
def resetAvailableServices (env : RemoteEnv) (wtss_host : String) (st : Storage) : Storage :=
  let st1 := (addService env st "Brazil Data Cube" wtss_host).2
  if getServiceNames env st1 = [] then some [] else st1

/-- A leaf of the QGIS tree: a coverage name and its (always empty)
child list. -/
abbrev CoverageNode := String × List Unit

/-- A server node of the QGIS tree: the service name and its coverage
leaves. -/
abbrev ServerNode := String × List CoverageNode

/-- The `coverage_tree` list built by `loadServices`: one `(coverage, [])`
pair per coverage. -/
def coverageTree (covs : List String) : List CoverageNode :=
  covs.map (fun coverage => (coverage, ([] : List Unit)))

/-- The loop of `Services.loadServices`: it iterates over the list read
once at entry while `deleteService` rewrites the file underneath it.
A server whose host passes the connection test contributes a tree node
(the client's `coverages` read again deterministically yields the same
list the test saw); a failing server triggers `deleteService` on the
current file. -/
def loadServicesAux (env : RemoteEnv) : List Service → Storage → List ServerNode × Storage
  | [], st => ([], st)
  | server :: rest, st =>
    match env.wtssCoverages server.host with
    | some covs =>
      let p := loadServicesAux env rest st
      ((server.name, coverageTree covs) :: p.1, p.2)
    | none =>
      loadServicesAux env rest (deleteService st server.name).2

/-- `Services.loadServices`: returns `[('Services', servers)]` and, as a
side effect, the storage after the deletions.  On a missing file the
handler returns the empty tree. -/
def loadServices (env : RemoteEnv) (st : Storage) :
    List (String × List ServerNode) × Storage :=
  match st with
  | none => ([("Services", [])], none)
  | some services =>
    let p := loadServicesAux env services (some services)
    ([("Services", p.1)], p.2)

/-- `Services.listProducts`: `findServiceByName(...).host` raises
`AttributeError` on an unregistered name; a passing connection test
reads the client's coverages (an uncaught raise there surfaces), a
failing one returns `[]`. -/
def listProducts (env : RemoteEnv) (st : Storage) (service_name : String) :
    Except PyExn (List String) :=
  match findServiceByName st service_name with
  | none => .error .attributeError
  | some srv =>
    if testServiceConnection env srv.host then
      match env.wtssCoverages srv.host with
      | some covs => .ok covs
      | none => .error .wtssError
    else
      .ok []

/-- `Services.productDescription`: like `listProducts`, but reading
`client[product]`; a failing connection test returns the empty dict. -/
def productDescription (env : RemoteEnv) (st : Storage) (service_name product : String) :
    Except PyExn (List (String × String)) :=
  match findServiceByName st service_name with
  | none => .error .attributeError
  | some srv =>
    if testServiceConnection env srv.host then
      match env.wtssDescribe srv.host product with
      | some d => .ok d
      | none => .error .wtssError
    else
      .ok []

/-- `Services.productTimeSeries`, instrumented with the list of remote
calls it issues, in order.  A passing connection test runs the client's
`ts` call inside a `try` whose handler returns `None`.  A FAILING test
does not return: the `else` branch issues a raw
`requests.get(host + "/wtss/time_series", params)` with no `try` around
it — a raise there escapes; any status other than 200 yields `None`.
On a 200 response the source maps `datetime.strptime` over the decoded
timeline, but `datetime` is the MODULE (imported at the top of the
file; the star import of the `wtss` client does not rebind the name),
which has no `strptime` attribute — so a non-empty timeline raises an
uncaught `AttributeError`, and only a 200 response whose timeline is
empty is returned. -/
def productTimeSeries (env : RemoteEnv) (st : Storage) (service_name product : String)
    (q : TsQuery) : Except PyExn (Option TsValue) × List RemoteCall :=
  match findServiceByName st service_name with
  | none => (.error .attributeError, [])
  | some srv =>
    if testServiceConnection env srv.host then
      match env.wtssTs srv.host product q with
      | some ts =>
        (.ok (some (.fromWtss ts)), [.wtssCoverages srv.host, .wtssTimeSeries srv.host product])
      | none =>
        (.ok none, [.wtssCoverages srv.host, .wtssTimeSeries srv.host product])
    else
      let url := srv.host ++ "/wtss/time_series"
      match env.httpGet url q with
      | none => (.error .requestsError, [.wtssCoverages srv.host, .httpGet url])
      | some resp =>
        if resp.status_code = 200 then
          match resp.timeline with
          | [] => (.ok (some (.fromHttp resp.body)), [.wtssCoverages srv.host, .httpGet url])
          | _ :: _ => (.error .attributeError, [.wtssCoverages srv.host, .httpGet url])
        else
          (.ok none, [.wtssCoverages srv.host, .httpGet url])

/-- The third-party projection library (`pyproj.transform` applied to
two `Proj` objects): an abstract transform from a source CRS string to
a target CRS string on a coordinate pair. -/
structure ProjLib (α : Type) where
  transform : String → String → α → α → α × α

/-- The dictionary `Controls.transformProjection` returns. -/
structure TransformResult (α : Type) where
  lat : α
  long : α
  crs : String

/-- `Controls.transformProjection`: reprojects the point to EPSG:4326
through the projection library and packages it with the constant
`"crs": "EPSG:4326"`. -/
def transformProjection {α : Type} (proj_lib : ProjLib α) (projection : String)
    (latitude longitude : α) : TransformResult α :=
  let p := proj_lib.transform projection "EPSG:4326" latitude longitude
  { lat := p.1, long := p.2, crs := "EPSG:4326" }

/-- The storage states reachable by the plugin's mutating operations
from the empty list or from the default list `resetAvailableServices`
builds on first run (the file initially missing). -/
inductive Reachable (env : RemoteEnv) : Storage → Prop where
  | init_empty : Reachable env (some [])
  | init_default (wtss_host : String) :
      Reachable env (resetAvailableServices env wtss_host none)
  | add (st : Storage) (name host : String) :
      Reachable env st → Reachable env (addService env st name host).2
  | del (st : Storage) (server_name : String) :
      Reachable env st → Reachable env (deleteService st server_name).2
  | edit (st : Storage) (server_name server_host : String) :
      Reachable env st → Reachable env (editService env st server_name server_host).2

/-- The ids along the stored list are strictly increasing. -/
def idsSorted (services : List Service) : Prop :=
  services.Pairwise (fun x y => x.id < y.id)

/-- The id invariant of a storage state: whatever list the file holds is
`idsSorted`. -/
def invariantIds (st : Storage) : Prop :=
  ∀ services, st = some services → idsSorted services

/-! ### Concrete environments and states used by witnesses and
counterexamples -/

/-- A remote world in which every call succeeds. -/
def envAllUp : RemoteEnv where
  wtssCoverages := fun _ => some ["coverage1"]
  wtssDescribe := fun _ _ => some [("description", "d")]
  wtssTs := fun _ _ _ => some "ts"
  httpGet := fun _ _ => some ⟨200, "body", []⟩

/-- A remote world in which every call raises. -/
def envAllDown : RemoteEnv where
  wtssCoverages := fun _ => none
  wtssDescribe := fun _ _ => none
  wtssTs := fun _ _ _ => none
  httpGet := fun _ _ => none

/-- WTSS client calls raise, but the raw HTTP endpoint answers 404. -/
def envHttp404 : RemoteEnv where
  wtssCoverages := fun _ => none
  wtssDescribe := fun _ _ => none
  wtssTs := fun _ _ _ => none
  httpGet := fun _ _ => some ⟨404, "err", []⟩

/-- Only the host `"good"` answers WTSS calls. -/
def envGoodHost : RemoteEnv where
  wtssCoverages := fun h => if h = "good" then some ["c1"] else none
  wtssDescribe := fun _ _ => none
  wtssTs := fun _ _ _ => none
  httpGet := fun _ _ => none

/-- A storage with one registered service. -/
def stOne : Storage := some [⟨0, "n", "h"⟩]

/-- A storage with two services sharing the name `"n"`. -/
def stDupNames : Storage := some [⟨0, "n", "h1"⟩, ⟨1, "n", "h2"⟩]

/-- A duplicate-name storage whose first entry is unreachable and whose
second is reachable. -/
def stBadThenGood : Storage := some [⟨0, "n", "bad"⟩, ⟨1, "n", "good"⟩]

/-- A fixed time-series query. -/
def q0 : TsQuery := ⟨["b"], 0, 0, "2020-01-01", "2020-01-02"⟩

/-! ### Helper lemmas on the storage primitives -/

/-- Folding the lookup over services none of which carry the name leaves
the accumulator unchanged. -/
lemma foldl_find_no_match (services : List Service) (n : String) (acc : Option Service)
    (h : ∀ x ∈ services, x.name ≠ n) :
    services.foldl (fun acc server => if server.name = n then some server else acc) acc
      = acc := by
  induction services generalizing acc with
  | nil => rfl
  | cons s rest ih =>
    have hs : s.name ≠ n := h s (by simp)
    simp only [List.foldl_cons, if_neg hs]
    exact ih acc fun x hx => h x (by simp [hx])

/-- The lookup returns `none` when no stored service carries the name. -/
lemma findServiceInList_none (l : List Service) (n : String) (h : ∀ x ∈ l, x.name ≠ n) :
    findServiceInList l n = none :=
  foldl_find_no_match l n none h

/-- The lookup returns the LAST service carrying the name: matches later
in the list overwrite earlier ones. -/
lemma findServiceInList_last (a b : List Service) (s : Service) (n : String)
    (hs : s.name = n) (hb : ∀ x ∈ b, x.name ≠ n) :
    findServiceInList (a ++ s :: b) n = some s := by
  unfold findServiceInList
  rw [List.foldl_append, List.foldl_cons, if_pos hs]
  exact foldl_find_no_match b n (some s) hb

/-- Removing the first element equal to `s` when nothing before `s` is
equal to it removes exactly `s`. -/
lemma removeFirstEq_append (a b : List Service) (s : Service) (ha : ∀ x ∈ a, x ≠ s) :
    removeFirstEq (a ++ s :: b) s = a ++ b := by
  induction a with
  | nil => simp [removeFirstEq]
  | cons x a' ih =>
    have hx : x ≠ s := ha x (by simp)
    simp only [List.cons_append, removeFirstEq, if_neg hx]
    exact congrArg (List.cons x) (ih fun y hy => ha y (by simp [hy]))

/-- `removeFirstEq` yields a sublist: it removes at most one element and
keeps the order of the rest. -/
lemma removeFirstEq_sublist (l : List Service) (s : Service) :
    List.Sublist (removeFirstEq l s) l := by
  induction l with
  | nil => simp [removeFirstEq]
  | cons x rest ih =>
    by_cases hx : x = s
    · simp [removeFirstEq, hx]
    · simpa [removeFirstEq, hx] using ih.cons₂ x

/-! ### Claim theorems -/

/-- Claim C9: for every input projection string and coordinate pair,
`transformProjection` returns a record whose `crs` field is the constant
string `"EPSG:4326"`, whatever the third-party projection library
computes for the coordinates. -/
theorem C9_transformProjection_crs {α : Type} (proj_lib : ProjLib α) (projection : String)
    (latitude longitude : α) :
    (transformProjection proj_lib projection latitude longitude).crs = "EPSG:4326" := rfl

/-- Claim C6: `addService` registers a new service (appending
`Service(nextIndex, name, host)` and so changing the stored list) exactly
when the connection test succeeds and the name is not yet registered; in
every other case the storage is unchanged and the lookup result (the
already-registered service, or `None` when the name is absent) is
returned. -/
theorem C6_addService_correct (env : RemoteEnv) (st : Storage) (name host : String) :
    (addService env st name host =
      if testServiceConnection env host = true ∧ findServiceByName st name = none then
        (some ⟨nextIndex st, name, host⟩,
          some (st.getD [] ++ [⟨nextIndex st, name, host⟩]))
      else
        (findServiceByName st name, st)) ∧
    some (st.getD [] ++ [(⟨nextIndex st, name, host⟩ : Service)]) ≠ st := by
  constructor
  · cases hf : findServiceByName st name <;>
      cases ht : testServiceConnection env host <;>
        simp [addService, hf, ht]
  · cases st with
    | none => simp
    | some services =>
      simp only [Option.getD_some, ne_eq, Option.some.injEq]
      intro hlen
      have : (services ++ [(⟨nextIndex (some services), name, host⟩ : Service)]).length
          = services.length := congrArg List.length hlen
      simp at this

/-- Claim C5 counterexample: with the services file missing and a
reachable host, `addService` does NOT return `None` — it creates the
file with the new service and returns that service. -/
theorem C5_counterexample :
    (addService envAllUp none "n" "h").1 ≠ none ∧
    addService envAllUp none "n" "h" =
      (some ⟨0, "n", "h"⟩, some [⟨0, "n", "h"⟩]) := by
  constructor
  · intro h
    have hs : (addService envAllUp none "n" "h").1 = some ⟨0, "n", "h"⟩ := rfl
    exact Option.noConfusion (hs.symm.trans h)
  · rfl

/-- Claim C5 (amended): when the services JSON file cannot be opened,
`getServiceNames` returns `[]`, `getServicesDict` returns `{}`,
`findServiceByName` and `deleteService` return `None` (leaving no file
behind); `addService` returns `None` only when the host is unreachable —
when the host is reachable it creates the file holding the single new
service and returns that service. -/
theorem C5_missing_file_amended (env : RemoteEnv) (name host : String) :
    getServiceNames env none = [] ∧
    getServicesDict none = .empty ∧
    findServiceByName none name = none ∧
    deleteService none name = (none, none) ∧
    addService env none name host =
      (if testServiceConnection env host then
        (some ⟨0, name, host⟩, some [⟨0, name, host⟩])
      else (none, none)) := by
  refine ⟨rfl, rfl, rfl, rfl, ?_⟩
  cases ht : testServiceConnection env host <;>
    simp [addService, findServiceByName, findServiceInList, nextIndex, ht]

/-- Claim C1 counterexample: with `"n"` registered and the remote
service fully unavailable (every remote call raises), `listProducts`
and `productDescription` do return empty values, but `productTimeSeries`
does not return `None`: its fallback `requests.get` has no `try` around
it, so the raise escapes the method. -/
theorem C1_counterexample :
    testServiceConnection envAllDown "h" = false ∧
    findServiceByName stOne "n" = some ⟨0, "n", "h"⟩ ∧
    listProducts envAllDown stOne "n" = .ok [] ∧
    productDescription envAllDown stOne "n" "p" = .ok [] ∧
    (productTimeSeries envAllDown stOne "n" "p" q0).1 = .error .requestsError :=
  ⟨rfl, rfl, rfl, rfl, rfl⟩

/-- Claim C1 (amended): for every registered service name whose host
fails the connection test, `listProducts` returns the empty list and
`productDescription` returns the empty dictionary; `productTimeSeries`
instead issues a fallback raw HTTP request to
`host ++ "/wtss/time_series"`: it raises when the request itself
errors, returns `None` on any status other than 200, and on a 200
response raises `AttributeError` for any non-empty timeline (the date
conversion calls `strptime` on the `datetime` MODULE), returning the
decoded body only when the timeline is empty. -/
theorem C1_unavailable_amended (env : RemoteEnv) (st : Storage)
    (service_name product : String) (q : TsQuery) (srv : Service)
    (hfind : findServiceByName st service_name = some srv)
    (hdown : env.wtssCoverages srv.host = none) :
    listProducts env st service_name = .ok [] ∧
    productDescription env st service_name product = .ok [] ∧
    (productTimeSeries env st service_name product q).1 =
      (match env.httpGet (srv.host ++ "/wtss/time_series") q with
       | none => .error .requestsError
       | some resp =>
         if resp.status_code = 200 then
           match resp.timeline with
           | [] => .ok (some (.fromHttp resp.body))
           | _ :: _ => .error .attributeError
         else .ok none) := by
  have ht : testServiceConnection env srv.host = false := by
    simp [testServiceConnection, hdown]
  refine ⟨?_, ?_, ?_⟩
  · simp [listProducts, hfind, ht]
  · simp [productDescription, hfind, ht]
  · cases hresp : env.httpGet (srv.host ++ "/wtss/time_series") q with
    | none => simp [productTimeSeries, hfind, ht, hresp]
    | some resp =>
      by_cases hcode : resp.status_code = 200
      · cases htl : resp.timeline with
        | nil => simp [productTimeSeries, hfind, ht, hresp, hcode, htl]
        | cons t ts => simp [productTimeSeries, hfind, ht, hresp, hcode, htl]
      · simp [productTimeSeries, hfind, ht, hresp, hcode]

/-- Claim C1 witness: the amended claim at a registered service whose
WTSS endpoint is down while the raw HTTP endpoint answers 404. -/
theorem C1_unavailable_amended_witness :
    listProducts envHttp404 stOne "n" = .ok [] ∧
    productDescription envHttp404 stOne "n" "p" = .ok [] ∧
    (productTimeSeries envHttp404 stOne "n" "p" q0).1 = .ok none := by
  have h := C1_unavailable_amended envHttp404 stOne "n" "p" q0 ⟨0, "n", "h"⟩ rfl rfl
  exact ⟨h.1, h.2.1, h.2.2.trans rfl⟩

/-- Claim C3 counterexample: with `"n"` registered at host `"h"` and the
connection test failing, `productTimeSeries` does NOT stop after the
test: its remote-call trace additionally holds the fallback raw HTTP
request to `"h/wtss/time_series"`. -/
theorem C3_counterexample :
    testServiceConnection envHttp404 "h" = false ∧
    (productTimeSeries envHttp404 stOne "n" "p" q0).2 =
      [.wtssCoverages "h", .httpGet "h/wtss/time_series"] ∧
    RemoteCall.httpGet "h/wtss/time_series" ∈ (productTimeSeries envHttp404 stOne "n" "p" q0).2 := by
  refine ⟨rfl, rfl, ?_⟩
  have h2 : (productTimeSeries envHttp404 stOne "n" "p" q0).2 =
      [.wtssCoverages "h", .httpGet "h/wtss/time_series"] := rfl
  rw [h2]
  simp

/-- Claim C3 (amended): a `productTimeSeries` call issues at most two
remote interactions and never retries; when the connection test for the
registered host fails, the trace is exactly the failing test followed
by the single fallback raw HTTP request (so a further request IS
issued). -/
theorem C3_requests_amended (env : RemoteEnv) (st : Storage)
    (service_name product : String) (q : TsQuery) :
    (productTimeSeries env st service_name product q).2.length ≤ 2 ∧
    ∀ srv, findServiceByName st service_name = some srv →
      testServiceConnection env srv.host = false →
      (productTimeSeries env st service_name product q).2 =
        [.wtssCoverages srv.host, .httpGet (srv.host ++ "/wtss/time_series")] := by
  constructor
  · unfold productTimeSeries
    cases hfind : findServiceByName st service_name with
    | none => simp
    | some srv =>
      cases ht : testServiceConnection env srv.host with
      | false =>
        cases hresp : env.httpGet (srv.host ++ "/wtss/time_series") q with
        | none => simp [ht, hresp]
        | some resp =>
          by_cases hcode : resp.status_code = 200
          · cases htl : resp.timeline <;> simp [ht, hresp, hcode, htl]
          · simp [ht, hresp, hcode]
      | true =>
        cases hts : env.wtssTs srv.host product q with
        | none => simp [ht, hts]
        | some ts => simp [ht, hts]
  · intro srv hfind ht
    cases hresp : env.httpGet (srv.host ++ "/wtss/time_series") q with
    | none => simp [productTimeSeries, hfind, ht, hresp]
    | some resp =>
      by_cases hcode : resp.status_code = 200
      · cases htl : resp.timeline <;> simp [productTimeSeries, hfind, ht, hresp, hcode, htl]
      · simp [productTimeSeries, hfind, ht, hresp, hcode]

/-- Claim C2 counterexample: with the name `"n"` registered twice,
`deleteService("n")` removes only the LAST matching entry, so the
following `findServiceByName("n")` still returns a service instead of
`None`. -/
theorem C2_counterexample :
    findServiceByName stDupNames "n" = some ⟨1, "n", "h2"⟩ ∧
    deleteService stDupNames "n" = (some ⟨1, "n", "h2"⟩, some [⟨0, "n", "h1"⟩]) ∧
    findServiceByName (deleteService stDupNames "n").2 "n" = some ⟨0, "n", "h1"⟩ :=
  ⟨rfl, rfl, rfl⟩

/-- Claim C2 (amended): for every stored list, a reachable host and a
name not yet registered, `addService` followed by `findServiceByName`
returns the freshly stored service carrying exactly that name and host;
and for every name carried by EXACTLY ONE stored service, `deleteService`
followed by `findServiceByName` returns `None` (a name registered twice
survives one deletion). -/
theorem C2_crud_amended (env : RemoteEnv) (st : Storage) (name host : String)
    (a b : List Service) (s : Service) :
    (testServiceConnection env host = true → findServiceByName st name = none →
      findServiceByName (addService env st name host).2 name =
        some ⟨nextIndex st, name, host⟩) ∧
    (s.name = name → (∀ x ∈ a, x.name ≠ name) → (∀ x ∈ b, x.name ≠ name) →
      findServiceByName (deleteService (some (a ++ s :: b)) name).2 name = none) := by
  constructor
  · intro ht hnone
    have hadd : addService env st name host =
        (some ⟨nextIndex st, name, host⟩,
          some (st.getD [] ++ [⟨nextIndex st, name, host⟩])) := by
      simp [addService, hnone, ht]
    rw [hadd]
    exact findServiceInList_last (st.getD []) [] ⟨nextIndex st, name, host⟩ name rfl (by simp)
  · intro hs ha hb
    have hfind : findServiceByName (some (a ++ s :: b)) name = some s :=
      findServiceInList_last a b s name hs hb
    have has : ∀ x ∈ a, x ≠ s := fun x hx heq => ha x hx (heq ▸ hs)
    have hdel : deleteService (some (a ++ s :: b)) name = (some s, some (a ++ b)) := by
      simp [deleteService, hfind, removeFirstEq_append a b s has]
    rw [hdel]
    refine findServiceInList_none (a ++ b) name ?_
    intro x hx
    rcases List.mem_append.mp hx with h | h
    · exact ha x h
    · exact hb x h

/-- Claim C4 counterexample: with the name `"n"` registered twice and an
unreachable new host, `editService` deletes only the last matching
entry and then returns the OTHER remaining entry — not `None` — and the
following lookup still finds it. -/
theorem C4_counterexample :
    testServiceConnection envAllDown "h3" = false ∧
    editService envAllDown stDupNames "n" "h3" =
      (some ⟨0, "n", "h1"⟩, some [⟨0, "n", "h1"⟩]) ∧
    findServiceByName (editService envAllDown stDupNames "n" "h3").2 "n" =
      some ⟨0, "n", "h1"⟩ :=
  ⟨rfl, rfl, rfl⟩

/-- Claim C4 (amended): for every stored list in which exactly one
service carries `server_name`, if the connection test for the new host
fails then `editService` deletes that entry, adds no replacement,
returns `None`, and the following `findServiceByName` returns `None` —
the previously stored service is lost. -/
theorem C4_edit_not_atomic_amended (env : RemoteEnv) (a b : List Service) (s : Service)
    (server_host : String)
    (hconn : testServiceConnection env server_host = false)
    (ha : ∀ x ∈ a, x.name ≠ s.name) (hb : ∀ x ∈ b, x.name ≠ s.name) :
    editService env (some (a ++ s :: b)) s.name server_host = (none, some (a ++ b)) ∧
    findServiceByName (editService env (some (a ++ s :: b)) s.name server_host).2 s.name
      = none := by
  have hfind : findServiceByName (some (a ++ s :: b)) s.name = some s :=
    findServiceInList_last a b s s.name rfl hb
  have has : ∀ x ∈ a, x ≠ s := fun x hx heq => ha x hx (by rw [heq])
  have hdel : deleteService (some (a ++ s :: b)) s.name = (some s, some (a ++ b)) := by
    simp [deleteService, hfind, removeFirstEq_append a b s has]
  have hnone : findServiceByName (some (a ++ b)) s.name = none := by
    refine findServiceInList_none (a ++ b) s.name ?_
    intro x hx
    rcases List.mem_append.mp hx with h | h
    · exact ha x h
    · exact hb x h
  have hedit : editService env (some (a ++ s :: b)) s.name server_host
      = (none, some (a ++ b)) := by
    simp [editService, hfind, hdel, addService, hnone, hconn]
  exact ⟨hedit, by rw [hedit]; exact hnone⟩

/-- Claim C4 witness: the amended claim at a one-element stored list and
an unreachable replacement host. -/
theorem C4_edit_not_atomic_amended_witness :
    editService envAllDown (some [(⟨0, "n", "h1"⟩ : Service)]) "n" "h2" = (none, some []) ∧
    findServiceByName
        (editService envAllDown (some [(⟨0, "n", "h1"⟩ : Service)]) "n" "h2").2 "n"
      = none := by
  exact C4_edit_not_atomic_amended envAllDown [] [] ⟨0, "n", "h1"⟩ "h2" rfl
    (by simp) (by simp)

/-- Claim C7 counterexample: the storage after `loadServices`.  With two
entries named `"n"` — an unreachable one first, a reachable one second —
deleting the failing first entry by NAME removes the last match, i.e.
the reachable entry, so the unreachable service survives in storage. -/
theorem C7_counterexample :
    (loadServices envGoodHost stBadThenGood).2 = some [⟨0, "n", "bad"⟩] ∧
    testServiceConnection envGoodHost "bad" = false :=
  ⟨rfl, rfl⟩

/-- The invariant of the `loadServices` loop: iterating over the
entry-time snapshot `done ++ rest` with the already-processed part
`done` reduced in storage to its passing services, the loop returns the
tree nodes of the passing remainder and leaves exactly the passing
services in storage — provided service names are pairwise distinct. -/
lemma loadServicesAux_filter (env : RemoteEnv) (rest : List Service) :
    ∀ done : List Service,
      (done ++ rest).Pairwise (fun x y => x.name ≠ y.name) →
      loadServicesAux env rest
          (some (done.filter (fun s => testServiceConnection env s.host) ++ rest)) =
        ((rest.filter (fun s => testServiceConnection env s.host)).map
            (fun s => (s.name, coverageTree ((env.wtssCoverages s.host).getD []))),
          some ((done ++ rest).filter (fun s => testServiceConnection env s.host))) := by
  induction rest with
  | nil =>
    intro done h
    simp [loadServicesAux]
  | cons s rest' ih =>
    intro done h
    have hpa := List.pairwise_append.mp h
    have hb : ∀ x ∈ rest', x.name ≠ s.name := fun x hx =>
      Ne.symm ((List.pairwise_cons.mp hpa.2.1).1 x hx)
    have ha : ∀ x ∈ done, x.name ≠ s.name := fun x hx => hpa.2.2 x hx s (by simp)
    have h' : ((done ++ [s]) ++ rest').Pairwise (fun x y => x.name ≠ y.name) := by
      simpa [List.append_assoc] using h
    have hassoc : (done ++ [s]) ++ rest' = done ++ s :: rest' := by
      simp
    cases hc : env.wtssCoverages s.host with
    | some covs =>
      have hpass : testServiceConnection env s.host = true := by
        simp [testServiceConnection, hc]
      have harg : (done ++ [s]).filter (fun s => testServiceConnection env s.host) ++ rest'
          = done.filter (fun s => testServiceConnection env s.host) ++ s :: rest' := by
        simp [List.filter_append, List.filter_cons, hpass]
      have hih := ih (done ++ [s]) h'
      rw [harg, hassoc] at hih
      simp only [loadServicesAux, hc, hih]
      simp [List.filter_cons, hpass, hc]
    | none =>
      have hfail : testServiceConnection env s.host = false := by
        simp [testServiceConnection, hc]
      have hfind : findServiceByName
          (some (done.filter (fun s => testServiceConnection env s.host) ++ s :: rest'))
          s.name = some s :=
        findServiceInList_last _ rest' s s.name rfl hb
      have has : ∀ x ∈ done.filter (fun s => testServiceConnection env s.host), x ≠ s :=
        fun x hx heq => ha x (List.mem_of_mem_filter hx) (by rw [heq])
      have hdel : (deleteService
          (some (done.filter (fun s => testServiceConnection env s.host) ++ s :: rest'))
          s.name).2
          = some (done.filter (fun s => testServiceConnection env s.host) ++ rest') := by
        simp [deleteService, hfind, removeFirstEq_append _ rest' s has]
      have harg : (done ++ [s]).filter (fun s => testServiceConnection env s.host) ++ rest'
          = done.filter (fun s => testServiceConnection env s.host) ++ rest' := by
        simp [List.filter_append, List.filter_cons, hfail]
      have hih := ih (done ++ [s]) h'
      rw [harg, hassoc] at hih
      simp only [loadServicesAux, hc, hdel, hih]
      simp [List.filter_cons, hfail]

/-- Claim C7 (amended): for every stored list with pairwise-distinct
service names, `loadServices` leaves in storage exactly the services
passing the connection test (every failing one is deleted) and returns
the tree holding exactly the passing services, each with its coverage
names as leaves. -/
theorem C7_loadServices_amended (env : RemoteEnv) (services : List Service)
    (hnames : services.Pairwise (fun x y => x.name ≠ y.name)) :
    loadServices env (some services) =
      ([("Services",
          (services.filter (fun s => testServiceConnection env s.host)).map
            (fun s => (s.name, coverageTree ((env.wtssCoverages s.host).getD []))))],
        some (services.filter (fun s => testServiceConnection env s.host))) := by
  have h := loadServicesAux_filter env services [] (by simpa using hnames)
  simp only [List.filter_nil, List.nil_append] at h
  simp [loadServices, h]

/-- Claim C7 witness: the amended claim at a two-service list whose
first host answers and whose second does not. -/
theorem C7_loadServices_amended_witness :
    loadServices envGoodHost (some [⟨0, "x", "good"⟩, ⟨1, "y", "bad"⟩]) =
      ([("Services", [("x", [("c1", [])])])], some [⟨0, "x", "good"⟩]) := by
  have h := C7_loadServices_amended envGoodHost [⟨0, "x", "good"⟩, ⟨1, "y", "bad"⟩]
    (by simp)
  exact h.trans rfl

/-- A service read from `getLast?` is a member of the list. -/
lemma mem_of_getLast?_service : ∀ (l : List Service) (a : Service),
    l.getLast? = some a → a ∈ l
  | [], _, h => by simp at h
  | [_], _, h => by simp_all
  | x :: y :: t, a, h => by
    rw [List.getLast?_cons_cons] at h
    exact List.mem_cons_of_mem x (mem_of_getLast?_service (y :: t) a h)

/-- In a strictly increasing list every id is at most the last id. -/
lemma id_le_getLast_of_idsSorted : ∀ (l : List Service) (last : Service),
    idsSorted l → l.getLast? = some last → ∀ x ∈ l, x.id ≤ last.id
  | [], _, _, h, _, _ => by simp at h
  | [_], _, _, h, _, hx => by
    simp only [List.getLast?_singleton, Option.some.injEq] at h
    simp only [List.mem_singleton] at hx
    subst h; subst hx; exact le_refl _
  | a :: y :: t, last, hs, h, x, hx => by
    rw [List.getLast?_cons_cons] at h
    have hmem : last ∈ y :: t := mem_of_getLast?_service _ _ h
    rcases List.mem_cons.mp hx with hxa | hxyt
    · subst hxa
      exact le_of_lt ((List.pairwise_cons.mp hs).1 last hmem)
    · exact id_le_getLast_of_idsSorted (y :: t) last (List.pairwise_cons.mp hs).2 h x hxyt

/-- `addService` preserves the id invariant: the appended service gets
an id strictly above the last stored one. -/
lemma invariantIds_addService (env : RemoteEnv) (st : Storage) (name host : String)
    (h : invariantIds st) : invariantIds (addService env st name host).2 := by
  intro services hs
  simp only [addService] at hs
  split at hs
  · simp only [Option.some.injEq] at hs
    subst hs
    cases st with
    | none => simp [idsSorted]
    | some l =>
      have hl : idsSorted l := h l rfl
      simp only [Option.getD_some]
      rw [idsSorted, List.pairwise_append]
      refine ⟨hl, by simp, ?_⟩
      intro x hx y hy
      simp only [List.mem_singleton] at hy
      subst hy
      show x.id < nextIndex (some l)
      cases hgl : l.getLast? with
      | none =>
        rw [List.getLast?_eq_none_iff] at hgl
        subst hgl
        simp at hx
      | some last =>
        have hle : x.id ≤ last.id := id_le_getLast_of_idsSorted l last hl hgl x hx
        simp only [nextIndex, hgl]
        omega
  · exact h services hs

/-- `deleteService` preserves the id invariant: it removes one element
and keeps the order of the rest. -/
lemma invariantIds_deleteService (st : Storage) (server_name : String)
    (h : invariantIds st) : invariantIds (deleteService st server_name).2 := by
  intro services hs
  simp only [deleteService] at hs
  cases hf : findServiceByName st server_name with
  | none => rw [hf] at hs; exact h services hs
  | some s =>
    rw [hf] at hs
    cases st with
    | none => exact h services hs
    | some l =>
      simp only [Option.some.injEq] at hs
      subst hs
      exact List.Pairwise.sublist (removeFirstEq_sublist l s) (h l rfl)

/-- `editService` preserves the id invariant. -/
lemma invariantIds_editService (env : RemoteEnv) (st : Storage)
    (server_name server_host : String) (h : invariantIds st) :
    invariantIds (editService env st server_name server_host).2 := by
  simp only [editService]
  cases hf : findServiceByName st server_name with
  | none => exact invariantIds_addService env st _ _ h
  | some s =>
    exact invariantIds_addService env _ _ _ (invariantIds_deleteService st server_name h)

/-- `resetAvailableServices` yields an invariant state. -/
lemma invariantIds_resetAvailableServices (env : RemoteEnv) (wtss_host : String)
    (st : Storage) (h : invariantIds st) :
    invariantIds (resetAvailableServices env wtss_host st) := by
  simp only [resetAvailableServices]
  split
  · intro l hl
    simp only [Option.some.injEq] at hl
    subst hl
    simp [idsSorted]
  · exact invariantIds_addService env st _ _ h

/-- Claim C8: in every storage state reachable from the empty or default
list by `addService`, `deleteService` and `editService`, the stored ids
are strictly increasing (hence unique): `addService` appends with id
last-plus-one (`0` on an empty list) and `deleteService` removes one
element keeping the rest in order. -/
theorem C8_ids_strictly_increasing (env : RemoteEnv) (st : Storage)
    (h : Reachable env st) :
    ∀ services, st = some services → services.Pairwise (fun x y => x.id < y.id) := by
  induction h with
  | init_empty =>
    intro l hl
    simp only [Option.some.injEq] at hl
    subst hl
    simp
  | init_default wtss_host =>
    exact invariantIds_resetAvailableServices env wtss_host none (fun _ hl => by cases hl)
  | add st name host _ ih => exact invariantIds_addService env st name host ih
  | del st server_name _ ih => exact invariantIds_deleteService st server_name ih
  | edit st server_name server_host _ ih =>
    exact invariantIds_editService env st server_name server_host ih

/-- Claim C8 witness: a state reached by two `addService` calls has
strictly increasing ids. -/
theorem C8_ids_strictly_increasing_witness :
    List.Pairwise (fun x y : Service => x.id < y.id)
      [⟨0, "x", "h"⟩, ⟨1, "y", "h"⟩] := by
  have r0 : Reachable envAllUp (some []) := .init_empty
  have r1 : Reachable envAllUp (some [⟨0, "x", "h"⟩]) :=
    Reachable.add (some []) "x" "h" r0
  have r2 : Reachable envAllUp (some [⟨0, "x", "h"⟩, ⟨1, "y", "h"⟩]) :=
    Reachable.add (some [⟨0, "x", "h"⟩]) "y" "h" r1
  exact C8_ids_strictly_increasing envAllUp _ r2 _ rfl

end WtssQgis
